import Mathlib

/-!
Verification development for the AI Pipeline Health Monitor.

The repository ships a React/TypeScript frontend under frontend/src; the
Python backend (health-check runner, drift detector, incident manager,
remediation engine, rightsizing engine) is described by the specification
but its sources are not in the tree.  Frontend functions are embedded
directly from the TypeScript sources; the backend core is modelled from
the specification text, as marked on each definition.

Numeric values are modelled as exact rationals.
-/

namespace Frontend

/-- Embeds the CheckRun interface of frontend/src/api.ts, restricted to the
fields the verified components read (status, result_value). -/
structure CheckRunView where
  status : String
  result_value : Option ℚ
  deriving DecidableEq

/-- Embeds the HealthCheck interface of frontend/src/api.ts, restricted to
the fields the verified components read (check_type, last_run). -/
structure HealthCheckView where
  check_type : String
  last_run : Option CheckRunView
  deriving DecidableEq

/-- Accumulator of Dashboard.getStatusCounts in frontend/src/pages/Dashboard.tsx. -/
structure StatusCounts where
  passed : Nat
  failed : Nat
  pending : Nat
  deriving DecidableEq

/-- Embeds Dashboard.getStatusCounts (frontend/src/pages/Dashboard.tsx,
lines 123-133): a fold over healthChecks that counts a check as pending
when last_run is null, as passed when last_run.status equals the string
passed, and as failed otherwise. -/
def getStatusCounts (healthChecks : List HealthCheckView) : StatusCounts :=
  healthChecks.foldl
    (fun counts check =>
      match check.last_run with
      | none => { counts with pending := counts.pending + 1 }
      | some run =>
        if run.status = "passed" then { counts with passed := counts.passed + 1 }
        else { counts with failed := counts.failed + 1 })
    ⟨0, 0, 0⟩

/-- Classifier for the pending bucket of getStatusCounts. -/
def isPendingCheck (check : HealthCheckView) : Bool :=
  check.last_run.isNone

/-- Classifier for the passed bucket of getStatusCounts. -/
def isPassedCheck (check : HealthCheckView) : Bool :=
  match check.last_run with
  | none => false
  | some run => decide (run.status = "passed")

/-- Classifier for the failed bucket of getStatusCounts: a last run exists
and its status differs from passed. -/
def isFailedCheck (check : HealthCheckView) : Bool :=
  match check.last_run with
  | none => false
  | some run => !decide (run.status = "passed")

/-- Decimal digits of a natural number, accumulator and fuel based so that
it reduces definitionally. -/
def natDigitsCore : Nat → Nat → List Char → List Char
  | 0, _, acc => acc
  | fuel + 1, n, acc =>
    if n < 10 then Nat.digitChar n :: acc
    else natDigitsCore fuel (n / 10) (Nat.digitChar (n % 10) :: acc)

/-- Decimal rendering of a natural number. -/
def natToStr (n : Nat) : String :=
  String.mk (natDigitsCore (n + 1) n [])

/-- Left pad a string with the zero digit up to width d. -/
def padZeros (s : String) (d : Nat) : String :=
  if s.length < d then String.mk (List.replicate (d - s.length) '0') ++ s else s

/-- Exact rational model of the JavaScript Number.prototype.toFixed used by
HealthCheckCard.formatValue: round the value at d decimal places and render
sign, integer part, decimal point and d fractional digits. -/
def toFixed (q : ℚ) (d : Nat) : String :=
  if d = 0 then
    (if round (q * (10 : ℚ) ^ d) < 0 then "-" else "") ++
      natToStr (round (q * (10 : ℚ) ^ d)).natAbs
  else
    (if round (q * (10 : ℚ) ^ d) < 0 then "-" else "") ++
      natToStr ((round (q * (10 : ℚ) ^ d)).natAbs / 10 ^ d) ++ "." ++
      padZeros (natToStr ((round (q * (10 : ℚ) ^ d)).natAbs % 10 ^ d)) d

/-- Embeds HealthCheckCard.formatValue (frontend/src/components/HealthCheckCard.tsx,
lines 41-56).  The source guard is the JavaScript truthiness test
on check.last_run?.result_value, which sends a missing last run, a null
result_value and the number zero all to the string N/A; otherwise it
formats by check_type. -/
def formatValue (check : HealthCheckView) : String :=
  match check.last_run with
  | none => "N/A"
  | some run =>
    match run.result_value with
    | none => "N/A"
    | some v =>
      if v = 0 then "N/A"
      else
        match check.check_type with
        | "latency" => toFixed v 1 ++ "ms"
        | "correctness" => toFixed (v * 100) 1 ++ "%"
        | "drift" => "KS: " ++ toFixed v 3
        | "resource" => toFixed v 1 ++ "%"
        | _ => toFixed v 2

/-- The fetch response as seen by fetchAPI in frontend/src/api.ts: the ok
flag, the numeric HTTP status, its status text and the raw body. -/
structure HttpResponse where
  ok : Bool
  status : Nat
  statusText : String
  body : String
  deriving DecidableEq

/-- The base path every fetchAPI request is prefixed with, API_BASE in
frontend/src/api.ts. -/
def API_BASE : String := "/api"

/-- The two exception classes a fetchAPI call can surface: the Error
fetchAPI itself throws on a non-ok response, carrying the status code and
status text, and the rejection of response.json() on a body that is not
valid JSON, carrying the parser message.  They are distinct exception
values in the source as well. -/
inductive FetchError
  | httpError (status : Nat) (statusText : String)
  | parseError (msg : String)
  deriving DecidableEq

/-- The message of a surfaced exception: fetchAPI formats the status code
and status text into its own Error; a parse rejection keeps the parser
message. -/
def FetchError.message : FetchError → String
  | .httpError status statusText =>
    "API Error: " ++ natToStr status ++ " " ++ statusText
  | .parseError msg => msg

/-- Embeds fetchAPI (frontend/src/api.ts, lines 101-115).  The net
argument stands for the awaited fetch of the prefixed endpoint; parse
stands for response.json() and may reject, which the source propagates to
the caller unchanged.  On a non-ok response fetchAPI throws its own Error
built from the status code and status text; otherwise it returns the body
parsed as JSON, or the parse rejection. -/
def fetchAPI {T : Type} (net : String → HttpResponse) (parse : String → Except String T)
    (endpoint : String) : Except FetchError T :=
  if (net (API_BASE ++ endpoint)).ok then
    match parse (net (API_BASE ++ endpoint)).body with
    | Except.ok v => Except.ok v
    | Except.error msg => Except.error (FetchError.parseError msg)
  else
    Except.error (FetchError.httpError (net (API_BASE ++ endpoint)).status
      (net (API_BASE ++ endpoint)).statusText)

/-- Result shape of every client call going through fetchAPI: the parsed
body of an ok response, a propagated body-parse rejection on an ok
response, or the formatted HTTP error on a non-ok response. -/
def PropagatesFetch {T : Type} (result : Except FetchError T)
    (parse : String → Except String T) (response : HttpResponse) : Prop :=
  (∃ v, result = Except.ok v ∧ parse response.body = Except.ok v ∧ response.ok = true) ∨
  (∃ msg, result = Except.error (FetchError.parseError msg) ∧
    parse response.body = Except.error msg ∧ response.ok = true) ∨
  (result = Except.error (FetchError.httpError response.status response.statusText) ∧
    response.ok = false)

/-- Embeds getHealthChecks (frontend/src/api.ts): fetchAPI at the
healthchecks endpoint.  Request options do not enter the error contract;
the response arrives through net. -/
def getHealthChecks {T : Type} (net : String → HttpResponse)
    (parse : String → Except String T) : Except FetchError T :=
  fetchAPI net parse "/healthchecks"

/-- Embeds runHealthCheck (frontend/src/api.ts). -/
def runHealthCheck {T : Type} (net : String → HttpResponse)
    (parse : String → Except String T) : Except FetchError T :=
  fetchAPI net parse "/healthchecks/run"

/-- Embeds runAllHealthChecks (frontend/src/api.ts). -/
def runAllHealthChecks {T : Type} (net : String → HttpResponse)
    (parse : String → Except String T) : Except FetchError T :=
  fetchAPI net parse "/healthchecks/run-all"

/-- Embeds getCheckHistory (frontend/src/api.ts): the check id and the
limit are interpolated into the endpoint. -/
def getCheckHistory {T : Type} (net : String → HttpResponse)
    (parse : String → Except String T) (checkId limit : Nat) : Except FetchError T :=
  fetchAPI net parse ("/healthchecks/" ++ natToStr checkId ++ "/history?limit=" ++ natToStr limit)

/-- The query parameters getIncidents appends for its optional status and
severity filters. -/
def incidentQueryParams (status severity : Option String) : List String :=
  (match status with
   | some s => ["status=" ++ s]
   | none => []) ++
  (match severity with
   | some s => ["severity=" ++ s]
   | none => [])

/-- The query string getIncidents builds: empty when no filter is given,
otherwise the joined parameters behind a question mark. -/
def incidentsQuery (status severity : Option String) : String :=
  if incidentQueryParams status severity = [] then ""
  else "?" ++ String.intercalate "&" (incidentQueryParams status severity)

/-- Embeds getIncidents (frontend/src/api.ts). -/
def getIncidents {T : Type} (net : String → HttpResponse)
    (parse : String → Except String T) (status severity : Option String) :
    Except FetchError T :=
  fetchAPI net parse ("/incidents" ++ incidentsQuery status severity)

/-- Embeds createIncident (frontend/src/api.ts). -/
def createIncident {T : Type} (net : String → HttpResponse)
    (parse : String → Except String T) : Except FetchError T :=
  fetchAPI net parse "/incidents"

/-- Embeds remediate (frontend/src/api.ts). -/
def remediate {T : Type} (net : String → HttpResponse)
    (parse : String → Except String T) : Except FetchError T :=
  fetchAPI net parse "/remediate"

/-- Embeds resolveIncident (frontend/src/api.ts). -/
def resolveIncident {T : Type} (net : String → HttpResponse)
    (parse : String → Except String T) (incidentId : Nat) : Except FetchError T :=
  fetchAPI net parse ("/incidents/" ++ natToStr incidentId ++ "/resolve")

/-- Embeds getIncidentsSummary (frontend/src/api.ts). -/
def getIncidentsSummary {T : Type} (net : String → HttpResponse)
    (parse : String → Except String T) : Except FetchError T :=
  fetchAPI net parse "/incidents/summary"

/-- Embeds getInfrastructureSummary (frontend/src/api.ts). -/
def getInfrastructureSummary {T : Type} (net : String → HttpResponse)
    (parse : String → Except String T) : Except FetchError T :=
  fetchAPI net parse "/infrastructure/summary"

/-- The query string getInstanceMetrics builds for its optional provider
filter. -/
def providerQuery : Option String → String
  | some p => "?provider=" ++ p
  | none => ""

/-- Embeds getInstanceMetrics (frontend/src/api.ts). -/
def getInstanceMetrics {T : Type} (net : String → HttpResponse)
    (parse : String → Except String T) (provider : Option String) : Except FetchError T :=
  fetchAPI net parse ("/infrastructure/metrics" ++ providerQuery provider)

/-- Embeds getRightsizingOpportunities (frontend/src/api.ts). -/
def getRightsizingOpportunities {T : Type} (net : String → HttpResponse)
    (parse : String → Except String T) : Except FetchError T :=
  fetchAPI net parse "/rightsizing/opportunities"

/-- Embeds getCostSummary (frontend/src/api.ts). -/
def getCostSummary {T : Type} (net : String → HttpResponse)
    (parse : String → Except String T) : Except FetchError T :=
  fetchAPI net parse "/infrastructure/cost-summary"

/-- Embeds injectFailure (frontend/src/api.ts). -/
def injectFailure {T : Type} (net : String → HttpResponse)
    (parse : String → Except String T) : Except FetchError T :=
  fetchAPI net parse "/inject-failure"

/-- Embeds clearFailures (frontend/src/api.ts). -/
def clearFailures {T : Type} (net : String → HttpResponse)
    (parse : String → Except String T) : Except FetchError T :=
  fetchAPI net parse "/clear-failures"

/-- Embeds getModelHealth (frontend/src/api.ts). -/
def getModelHealth {T : Type} (net : String → HttpResponse)
    (parse : String → Except String T) : Except FetchError T :=
  fetchAPI net parse "/model-health"

end Frontend

namespace Core

/-- Modelled from the spec: check_type of a HealthCheck, section 3. -/
inductive CheckType
  | latency
  | correctness
  | drift
  | resource
  deriving DecidableEq

/-- Modelled from the spec: Incident severity, section 3. -/
inductive Severity
  | low
  | medium
  | high
  | critical
  deriving DecidableEq

/-- Modelled from the spec: Incident status, section 3 and 4.3. -/
inductive IncidentStatus
  | opened
  | remediating
  | resolved
  | escalated
  deriving DecidableEq

/-- Modelled from the spec: resolved and escalated are the terminal Incident
states, section 4.3. -/
def IncidentStatus.isTerminal : IncidentStatus → Bool
  | .resolved => true
  | .escalated => true
  | _ => false

/-- Modelled from the spec: the closed set of remediation strategies,
section 4.4. -/
inductive Strategy
  | restart_service
  | clear_cache
  | rollback_model
  | scale_hint
  deriving DecidableEq

/-- Modelled from the spec: recognition of a strategy name, section 4.4; an
unrecognized name yields none and surfaces UnknownStrategyError. -/
def parseStrategy (s : String) : Option Strategy :=
  if s = "restart_service" then some .restart_service
  else if s = "clear_cache" then some .clear_cache
  else if s = "rollback_model" then some .rollback_model
  else if s = "scale_hint" then some .scale_hint
  else none

/-- Modelled from the spec: a RemediationAttempt record, section 3,
restricted to the fields the verified properties read. -/
structure RemediationAttempt where
  strategy : Strategy
  dry_run : Bool
  success : Bool
  deriving DecidableEq

/-- Modelled from the spec: an Incident record, section 3. -/
structure Incident where
  id : Nat
  healthCheckId : Nat
  severity : Severity
  status : IncidentStatus
  checkRunIds : List Nat
  attempts : List RemediationAttempt
  resolvedStamp : Bool
  deriving DecidableEq

/-- Modelled from the spec: severity grading from the failing check type,
section 4.3. -/
def gradeSeverity : CheckType → Severity
  | .correctness => .critical
  | .latency => .high
  | .drift => .medium
  | .resource => .medium

/-- Modelled from the spec: the data of a failing CheckRun handed to the
Incident Manager, section 4.2 and 4.3. -/
structure FailingRun where
  runId : Nat
  healthCheckId : Nat
  checkType : CheckType
  deriving DecidableEq

/-- Modelled from the spec: the store state owned by the Incident Manager
and the Remediation Engine; execState abstracts the strategy-executor
target-system state, which real strategy runs mutate and dry runs must not,
section 4.4. -/
structure SysState where
  incidents : List Incident
  nextIncidentId : Nat
  execState : Nat
  deriving DecidableEq

/-- The empty initial store. -/
def initState : SysState := ⟨[], 0, 0⟩

/-- An incident counts against the dedup invariant for health check h when
it references h and is not terminal. -/
def isActiveFor (h : Nat) (i : Incident) : Bool :=
  decide (i.healthCheckId = h) && !i.status.isTerminal

/-- Modelled from the spec: the query for an existing non-terminal Incident
of a HealthCheck, section 4.3. -/
def findNonTerminal (s : SysState) (h : Nat) : Option Incident :=
  s.incidents.find? (isActiveFor h)

/-- Attach a CheckRun id to the non-terminal incident with the given id. -/
def attachRun (target : Nat) (runId : Nat) (l : List Incident) : List Incident :=
  l.map fun i =>
    if decide (i.id = target) && !i.status.isTerminal then
      { i with checkRunIds := runId :: i.checkRunIds }
    else i

/-- Modelled from the spec: Incident Manager intake of a failing CheckRun,
section 4.3.  If a non-terminal Incident already exists for the HealthCheck
the CheckRun is attached to it; otherwise a fresh open Incident is created
with severity graded from the check type. -/
def handleFailingRun (s : SysState) (run : FailingRun) : SysState :=
  match findNonTerminal s run.healthCheckId with
  | some i => { s with incidents := attachRun i.id run.runId s.incidents }
  | none =>
    { s with
      incidents :=
        { id := s.nextIncidentId
          healthCheckId := run.healthCheckId
          severity := gradeSeverity run.checkType
          status := .opened
          checkRunIds := [run.runId]
          attempts := []
          resolvedStamp := false } :: s.incidents
      nextIncidentId := s.nextIncidentId + 1 }

/-- Number of non-terminal incidents referencing health check h. -/
def countActive (s : SysState) (h : Nat) : Nat :=
  s.incidents.countP (isActiveFor h)

/-- Modelled from the spec: the configured retry limit, section 4.4 and the
example scenarios of section 8. -/
def MAX_REMEDIATION_RETRIES : Nat := 3

/-- Modelled from the spec: caller errors of the Remediation Engine,
section 7. -/
inductive RemError
  | UnknownIncidentError
  | UnknownStrategyError
  deriving DecidableEq

/-- Result of a remediate or resolve call: the post state, the sequence of
statuses the incident moved through during the call, and the surfaced error
if any.  On an error the post state equals the pre state. -/
structure RemResult where
  state : SysState
  trace : List IncidentStatus
  err : Option RemError
  deriving DecidableEq

/-- Lookup of an Incident by identity. -/
def findIncident (s : SysState) (incidentId : Nat) : Option Incident :=
  s.incidents.find? (fun i => decide (i.id = incidentId))

/-- A failed real (not dry-run) attempt, the unit of the retry counter. -/
def isFailedReal (a : RemediationAttempt) : Bool :=
  !a.dry_run && !a.success

/-- Apply f to the non-terminal incident with the given id; terminal
incidents are never modified, matching the absence of transitions out of
terminal states in section 4.3. -/
def setIncident (target : Nat) (f : Incident → Incident) (l : List Incident) : List Incident :=
  l.map fun i =>
    if decide (i.id = target) && !i.status.isTerminal then f i else i

/-- Modelled from the spec: a dry-run attempt record, section 4.4: recorded
with dry_run true, leaving status and retry counter untouched. -/
def dryStep (strat : Strategy) (j : Incident) : Incident :=
  { j with attempts := j.attempts ++ [⟨strat, true, true⟩] }

/-- Modelled from the spec: a real attempt, section 4.3 and 4.4: record the
outcome, then resolve on success, escalate when the failed real attempt
count has reached MAX_REMEDIATION_RETRIES, and return to open otherwise. -/
def realStep (strat : Strategy) (outcome : Bool) (j : Incident) : Incident :=
  { j with
      attempts := j.attempts ++ [⟨strat, false, outcome⟩]
      status :=
        if outcome then .resolved
        else if MAX_REMEDIATION_RETRIES ≤
            (j.attempts ++ [(⟨strat, false, outcome⟩ : RemediationAttempt)]).countP isFailedReal then .escalated
        else .opened
      resolvedStamp := j.resolvedStamp || outcome }

/-- Modelled from the spec: remediate(incident_id, strategy, dry_run),
section 4.4.  The outcome argument stands for the success report of the
external strategy executor.  Looks up the Incident and fails with
UnknownIncidentError when absent or terminal; fails with
UnknownStrategyError on an unrecognized strategy name; a dry run only
records an attempt; a real run moves the Incident through remediating to
its final status and mutates the executor state. -/
def remediate (s : SysState) (incidentId : Nat) (strategy : String)
    (dryRun : Bool) (outcome : Bool) : RemResult :=
  match findIncident s incidentId with
  | none => ⟨s, [], some .UnknownIncidentError⟩
  | some i =>
    if i.status.isTerminal then ⟨s, [], some .UnknownIncidentError⟩
    else
      match parseStrategy strategy with
      | none => ⟨s, [], some .UnknownStrategyError⟩
      | some strat =>
        if dryRun then
          ⟨{ s with incidents := setIncident i.id (dryStep strat) s.incidents }, [], none⟩
        else
          ⟨{ s with
              incidents := setIncident i.id (realStep strat outcome) s.incidents
              execState := s.execState + 1 },
            [.remediating, (realStep strat outcome i).status], none⟩

/-- Modelled from the spec: operator resolution with notes, permitted from
any non-terminal state, section 4.3. -/
def resolveManual (s : SysState) (incidentId : Nat) : RemResult :=
  match findIncident s incidentId with
  | none => ⟨s, [], some .UnknownIncidentError⟩
  | some i =>
    if i.status.isTerminal then ⟨s, [], some .UnknownIncidentError⟩
    else
      ⟨{ s with
          incidents :=
            setIncident i.id (fun j => { j with status := .resolved, resolvedStamp := true }) s.incidents },
        [.resolved], none⟩

/-- Modelled from the spec: one externally triggered transition of the
incident store, section 4.3 and 4.4: intake of a failing CheckRun, a
remediate call, or a manual resolution. -/
inductive Step : SysState → SysState → Prop
  | failingRun {s : SysState} (run : FailingRun) : Step s (handleFailingRun s run)
  | remediateCall {s : SysState} (incidentId : Nat) (strategy : String) (dryRun outcome : Bool) :
      Step s (remediate s incidentId strategy dryRun outcome).state
  | resolveCall {s : SysState} (incidentId : Nat) :
      Step s (resolveManual s incidentId).state

/-- States reachable from the empty store by the transitions of Step. -/
inductive Reachable : SysState → Prop
  | init : Reachable initState
  | next {s t : SysState} : Reachable s → Step s t → Reachable t

/-- Modelled from the spec: status of a CheckRun, section 3, restricted to
the statuses run_all can produce. -/
inductive RunStatus
  | passed
  | failed
  | error
  deriving DecidableEq

/-- Modelled from the spec: a configured HealthCheck, section 3, restricted
to the fields run_all reads. -/
structure HealthCheck where
  id : Nat
  check_type : CheckType
  enabled : Bool
  threshold_value : ℚ
  deriving DecidableEq

/-- Modelled from the spec: a CheckRun written by the Runner, section 3 and
4.2, restricted to the fields the verified properties read. -/
structure CheckRunRec where
  health_check_id : Nat
  status : RunStatus
  result_value : Option ℚ
  error_message : Option String
  deriving DecidableEq

/-- Modelled from the spec: the pass rule per check type, section 4.2:
latency and resource pass at value below or equal to the threshold,
correctness at value above or equal, drift at distance strictly below. -/
def passFor : CheckType → ℚ → ℚ → Bool
  | .latency, v, t => decide (v ≤ t)
  | .correctness, v, t => decide (t ≤ v)
  | .drift, v, t => decide (v < t)
  | .resource, v, t => decide (v ≤ t)

/-- Modelled from the spec: one evaluation, section 4.2.  The eval argument
stands for the external sampling of the current signal and may throw; an
exception is captured on the CheckRun as status error with error_message
set, never propagated. -/
def runOne (eval : HealthCheck → Except String ℚ) (hc : HealthCheck) : CheckRunRec :=
  match eval hc with
  | Except.ok v =>
    { health_check_id := hc.id
      status := if passFor hc.check_type v hc.threshold_value then .passed else .failed
      result_value := some v
      error_message := none }
  | Except.error msg =>
    { health_check_id := hc.id
      status := .error
      result_value := none
      error_message := some msg }

/-- Aggregate returned by run_all: total, passed and failed counts over the
produced CheckRuns, plus the individual runs. -/
structure RunAllResult where
  total : Nat
  passed : Nat
  failed : Nat
  runs : List CheckRunRec
  deriving DecidableEq

/-- Modelled from the spec: run_all(), section 4.2: evaluate every enabled
HealthCheck, one CheckRun each, and aggregate the pass and fail counts. -/
def run_all (eval : HealthCheck → Except String ℚ) (checks : List HealthCheck) : RunAllResult :=
  let runs := (checks.filter (fun hc => hc.enabled)).map (runOne eval)
  { total := runs.length
    passed := runs.countP (fun r => decide (r.status = .passed))
    failed := runs.countP (fun r => !decide (r.status = .passed))
    runs := runs }

/-- Modelled from the spec: empirical CDF of a sample at a point, section
4.1: the fraction of sample values below or equal to the point. -/
def ecdf (sample : List ℚ) (x : ℚ) : ℚ :=
  (sample.countP (fun v => decide (v ≤ x)) : ℚ) / (sample.length : ℚ)

/-- Modelled from the spec: the evaluation points of the KS statistic,
section 4.1: all distinct values from both samples. -/
def ksPoints (baseline current : List ℚ) : List ℚ :=
  (baseline ++ current).dedup

/-- Modelled from the spec: the two-sample Kolmogorov-Smirnov statistic,
section 4.1: the supremum of the absolute CDF difference over the
evaluation points. -/
def ksStat (baseline current : List ℚ) : ℚ :=
  (ksPoints baseline current).foldr
    (fun x acc => max |ecdf baseline x - ecdf current x| acc) 0

/-- Verdict of the Drift Detector: the distance and the pass flag. -/
structure DriftResult where
  D : ℚ
  passed : Bool
  deriving DecidableEq

/-- Modelled from the spec: the Drift Detector contract, section 4.1: fail
with InsufficientDataError when either sample is below the configured
minimum size, otherwise return D and passed as D strictly below the
threshold. -/
def detectDrift (minSize : Nat) (threshold : ℚ) (baseline current : List ℚ) :
    Except String DriftResult :=
  if baseline.length < minSize ∨ current.length < minSize then
    Except.error "InsufficientDataError"
  else
    Except.ok ⟨ksStat baseline current, decide (ksStat baseline current < threshold)⟩

/-- Modelled from the spec: an instance type of the price catalog, section
4.5 and 6: capacity and hourly price. -/
structure InstanceTypeSpec where
  name : String
  capacity : ℚ
  hourlyPrice : ℚ
  deriving DecidableEq

/-- Modelled from the spec: per-instance utilization aggregates over the
lookback window, section 4.5. -/
structure InstanceAggregate where
  instance_id : String
  current_type : InstanceTypeSpec
  avgCpu : ℚ
  p95Cpu : ℚ
  sampleCount : Nat
  deriving DecidableEq

/-- Modelled from the spec: recommendation confidence grade, section 4.5. -/
inductive Confidence
  | low
  | medium
  | high
  deriving DecidableEq

/-- Modelled from the spec: a RightsizingOpportunity, section 3 and 4.5. -/
structure RightsizingOpportunity where
  instance_id : String
  current_type : InstanceTypeSpec
  recommended_type : InstanceTypeSpec
  estimated_monthly_savings : ℚ
  confidence : Confidence
  deriving DecidableEq

/-- Modelled from the spec: projected utilization under a candidate type,
section 4.5: current P95 times current capacity over candidate capacity. -/
def projectedUtil (p95 currentCapacity candidateCapacity : ℚ) : ℚ :=
  p95 * currentCapacity / candidateCapacity

/-- Modelled from the spec: candidate type selection, section 4.5: a
catalog type strictly smaller than the current one whose projected
utilization stays below the safety ceiling. -/
def findSmallerType (catalog : List InstanceTypeSpec) (current : InstanceTypeSpec)
    (p95 ceiling : ℚ) : Option InstanceTypeSpec :=
  catalog.find? fun t =>
    decide (t.capacity < current.capacity) &&
    decide (projectedUtil p95 current.capacity t.capacity < ceiling)

/-- Modelled from the spec: the per-instance analysis pass, section 4.5:
idle and overutilized instances get no rightsizing recommendation; for a
candidate, emit an opportunity only when a qualifying smaller type exists,
with savings from the price difference and confidence from coverage. -/
def analyzeInstance (catalog : List InstanceTypeSpec) (idleThreshold highThreshold ceiling : ℚ)
    (hoursPerMonth : ℚ) (minSamples : Nat) (m : InstanceAggregate) :
    Option RightsizingOpportunity :=
  if m.avgCpu < idleThreshold then none
  else if highThreshold < m.p95Cpu then none
  else
    match findSmallerType catalog m.current_type m.p95Cpu ceiling with
    | none => none
    | some t =>
      some
        { instance_id := m.instance_id
          current_type := m.current_type
          recommended_type := t
          estimated_monthly_savings := (m.current_type.hourlyPrice - t.hourlyPrice) * hoursPerMonth
          confidence := if minSamples ≤ m.sampleCount then .high else .medium }

/-- Fixture: first failing run of health check 5. -/
def runA : FailingRun := ⟨10, 5, .latency⟩

/-- Fixture: second failing run of health check 5. -/
def runB : FailingRun := ⟨11, 5, .latency⟩

/-- Fixture: store after intake of the first failing run. -/
def sA : SysState := handleFailingRun initState runA

/-- Fixture: the incident opened by the first failing run. -/
def incA : Incident := ⟨0, 5, .high, .opened, [10], [], false⟩

/-- Fixture: an open incident with two failed real attempts recorded. -/
def incTwoFails : Incident :=
  ⟨0, 5, .high, .opened, [1],
    [⟨.restart_service, false, false⟩, ⟨.restart_service, false, false⟩], false⟩

/-- Fixture: store holding incTwoFails. -/
def sTwoFails : SysState := ⟨[incTwoFails], 1, 0⟩

/-- Fixture: the incident incTwoFails after a third failed real attempt. -/
def incAfterThird : Incident :=
  ⟨0, 5, .high, .escalated, [1],
    [⟨.restart_service, false, false⟩, ⟨.restart_service, false, false⟩,
      ⟨.restart_service, false, false⟩], false⟩

/-- Fixture: an escalated incident. -/
def incEsc : Incident := ⟨0, 5, .high, .escalated, [1], [], false⟩

/-- Fixture: store holding incEsc. -/
def sEsc : SysState := ⟨[incEsc], 1, 0⟩

/-- Fixture: a freshly opened incident with no attempts. -/
def incOpen : Incident := ⟨0, 7, .medium, .opened, [2], [], false⟩

/-- Fixture: store holding incOpen. -/
def sOpen : SysState := ⟨[incOpen], 1, 0⟩

/-- Fixture: an enabled latency check. -/
def hcLat : HealthCheck := ⟨0, .latency, true, 500⟩

/-- Fixture: an enabled correctness check whose sampling throws. -/
def hcErr : HealthCheck := ⟨1, .correctness, true, 1⟩

/-- Fixture: a disabled resource check. -/
def hcOff : HealthCheck := ⟨2, .resource, false, 90⟩

/-- Fixture: a three-check configuration. -/
def checksFix : List HealthCheck := [hcLat, hcErr, hcOff]

/-- Fixture: a sampling oracle that throws on check 1 and returns 620
elsewhere. -/
def evalFix : HealthCheck → Except String ℚ := fun hc =>
  if hc.id = 1 then Except.error "sampling failed" else Except.ok 620

/-- Fixture: a four-unit instance type. -/
def typeBig : InstanceTypeSpec := ⟨"cpu4", 4, 3⟩

/-- Fixture: a two-unit instance type. -/
def typeSmall : InstanceTypeSpec := ⟨"cpu2", 2, 1⟩

/-- Fixture: a one-entry catalog. -/
def catalogFix : List InstanceTypeSpec := [typeSmall]

/-- Fixture: utilization aggregate of an instance on typeBig. -/
def mFix : InstanceAggregate := ⟨"i-1", typeBig, 0, 0, 30⟩

/-- Fixture: the rightsizing opportunity the analysis emits for mFix. -/
def oppFix : RightsizingOpportunity :=
  ⟨"i-1", typeBig, typeSmall, (typeBig.hourlyPrice - typeSmall.hourlyPrice) * 730, .high⟩

end Core

namespace Frontend

/-- Fixture: a latency check whose last run measured 620. -/
def chkLatency : HealthCheckView := ⟨"latency", some ⟨"passed", some 620⟩⟩

/-- Fixture: a latency check whose last run measured exactly zero. -/
def chkZero : HealthCheckView := ⟨"latency", some ⟨"failed", some 0⟩⟩

/-- Fixture: a dashboard check list with one pending, one passed and one
errored check. -/
def dashList : List HealthCheckView :=
  [⟨"latency", none⟩, ⟨"correctness", some ⟨"passed", some 1⟩⟩, ⟨"drift", some ⟨"error", none⟩⟩]

/-- Fixture: a non-ok HTTP response. -/
def respFail : HttpResponse := ⟨false, 500, "Internal Server Error", ""⟩

/-- Fixture: an ok HTTP response with a JSON body. -/
def respOk : HttpResponse := ⟨true, 200, "OK", "[]"⟩

/-- Fixture: an ok HTTP response whose body is not valid JSON. -/
def respBadBody : HttpResponse := ⟨true, 200, "OK", "not json"⟩

/-- Fixture: a parse oracle standing for response.json() on the bodies
used here: it rejects the malformed body, as JSON.parse does, and accepts
the others. -/
def parseFix : String → Except String String := fun s =>
  if s = "not json" then Except.error "Unexpected token" else Except.ok s

/-- Fixture: a network that answers the healthchecks endpoint with the ok
response and everything else with the failing one. -/
def netFix : String → HttpResponse := fun endpoint =>
  if endpoint = "/api/healthchecks" then respOk else respFail

/-- Fixture: a network that always answers with the ok response whose body
is not valid JSON. -/
def netBadFix : String → HttpResponse := fun _ => respBadBody

end Frontend

namespace Frontend

/-- Unfolded characterization of one getStatusCounts fold over a list. -/
theorem getStatusCounts_foldl (l : List HealthCheckView) (acc : StatusCounts) :
    l.foldl
      (fun counts check =>
        match check.last_run with
        | none => { counts with pending := counts.pending + 1 }
        | some run =>
          if run.status = "passed" then { counts with passed := counts.passed + 1 }
          else { counts with failed := counts.failed + 1 })
      acc =
      ⟨acc.passed + l.countP isPassedCheck, acc.failed + l.countP isFailedCheck,
        acc.pending + l.countP isPendingCheck⟩ := by
  induction l generalizing acc with
  | nil => simp [List.countP_nil]
  | cons c l ih =>
    cases hc : c.last_run with
    | none =>
      simp only [List.foldl_cons, hc]
      rw [ih]
      simp [List.countP_cons, isPassedCheck, isFailedCheck, isPendingCheck, hc]
      omega
    | some run =>
      by_cases hs : run.status = "passed"
      · simp only [List.foldl_cons, hc, hs, if_pos]
        rw [ih]
        simp [List.countP_cons, isPassedCheck, isFailedCheck, isPendingCheck, hc, hs]
        omega
      · simp only [List.foldl_cons, hc, if_neg hs]
        rw [ih]
        simp [List.countP_cons, isPassedCheck, isFailedCheck, isPendingCheck, hc, hs]
        omega

/-- The three dashboard buckets partition any check list. -/
theorem statusBuckets_partition (l : List HealthCheckView) :
    l.countP isPassedCheck + l.countP isFailedCheck + l.countP isPendingCheck = l.length := by
  induction l with
  | nil => rfl
  | cons c l ih =>
    cases hc : c.last_run with
    | none =>
      simp [List.countP_cons, isPassedCheck, isFailedCheck, isPendingCheck, hc]
      omega
    | some run =>
      by_cases hs : run.status = "passed" <;>
        · simp [List.countP_cons, isPassedCheck, isFailedCheck, isPendingCheck, hc, hs]
          omega

/-- Claim C9: Dashboard.getStatusCounts assigns each health check to
exactly one bucket, pending when last_run is null, passed when the last
run has status passed, failed otherwise, so the three counts sum to the
number of checks, and a last run with status error or running is counted
as failing. -/
theorem getStatusCounts_spec (l : List HealthCheckView) :
    (getStatusCounts l).passed = l.countP isPassedCheck ∧
    (getStatusCounts l).failed = l.countP isFailedCheck ∧
    (getStatusCounts l).pending = l.countP isPendingCheck ∧
    (getStatusCounts l).passed + (getStatusCounts l).failed + (getStatusCounts l).pending =
      l.length ∧
    (∀ c : HealthCheckView, ∀ r : CheckRunView, c.last_run = some r →
      (r.status = "error" ∨ r.status = "running") → isFailedCheck c = true) := by
  have hfold := getStatusCounts_foldl l ⟨0, 0, 0⟩
  have hP : (getStatusCounts l).passed = l.countP isPassedCheck := by
    unfold getStatusCounts; rw [hfold]; simp
  have hF : (getStatusCounts l).failed = l.countP isFailedCheck := by
    unfold getStatusCounts; rw [hfold]; simp
  have hPend : (getStatusCounts l).pending = l.countP isPendingCheck := by
    unfold getStatusCounts; rw [hfold]; simp
  refine ⟨hP, hF, hPend, ?_, ?_⟩
  · rw [hP, hF, hPend]; exact statusBuckets_partition l
  · intro c r hc hs
    have hcf : isFailedCheck c = !decide (r.status = "passed") := by
      simp [isFailedCheck, hc]
    rw [hcf]
    rcases hs with hs | hs <;> rw [hs] <;> rfl

/-- Witness for C9 on the dashList fixture: one passed, one failed, one
pending check, summing to three, and the errored check counts as failing. -/
theorem getStatusCounts_spec_witness :
    (getStatusCounts dashList).passed = dashList.countP isPassedCheck ∧
    (getStatusCounts dashList).passed + (getStatusCounts dashList).failed +
      (getStatusCounts dashList).pending = dashList.length ∧
    isFailedCheck ⟨"drift", some ⟨"error", none⟩⟩ = true := by
  have h := getStatusCounts_spec dashList
  exact ⟨h.1, h.2.2.2.1, h.2.2.2.2 ⟨"drift", some ⟨"error", none⟩⟩ ⟨"error", none⟩ rfl (Or.inl rfl)⟩

/-- Every fetchAPI call lands in exactly one of the three result shapes:
parsed body, propagated parse rejection, or the formatted HTTP error. -/
theorem fetchAPI_propagates {T : Type} (net : String → HttpResponse)
    (parse : String → Except String T) (endpoint : String) :
    PropagatesFetch (fetchAPI net parse endpoint) parse (net (API_BASE ++ endpoint)) := by
  by_cases hok : (net (API_BASE ++ endpoint)).ok = true
  · cases hp : parse (net (API_BASE ++ endpoint)).body with
    | ok v =>
      exact Or.inl ⟨v, by rw [fetchAPI, if_pos hok, hp], hp, hok⟩
    | error msg =>
      exact Or.inr (Or.inl ⟨msg, by rw [fetchAPI, if_pos hok, hp], hp, hok⟩)
  · refine Or.inr (Or.inr ⟨by rw [fetchAPI, if_neg hok], ?_⟩)
    cases hb : (net (API_BASE ++ endpoint)).ok
    · rfl
    · exact absurd hb hok

/-- Claim C10, amended: fetchAPI throws its status Error exactly when the
fetched response has ok false, with the message built from the status code
and status text; on an ok response it returns the body parsed as JSON, or
propagates the rejection of response.json() on a malformed body; so every
exported API client function returns parsed JSON, propagates a body-parse
rejection, or propagates the status Error. -/
theorem fetchAPI_spec (T : Type) (net : String → HttpResponse)
    (parse : String → Except String T) (endpoint : String) :
    ((∃ st stx, fetchAPI net parse endpoint = Except.error (FetchError.httpError st stx)) ↔
      (net (API_BASE ++ endpoint)).ok = false) ∧
    (∀ st stx, fetchAPI net parse endpoint = Except.error (FetchError.httpError st stx) →
      st = (net (API_BASE ++ endpoint)).status ∧
      stx = (net (API_BASE ++ endpoint)).statusText ∧
      (FetchError.httpError st stx).message =
        "API Error: " ++ natToStr (net (API_BASE ++ endpoint)).status ++ " " ++
          (net (API_BASE ++ endpoint)).statusText) ∧
    ((net (API_BASE ++ endpoint)).ok = true →
      (∀ v, parse (net (API_BASE ++ endpoint)).body = Except.ok v →
        fetchAPI net parse endpoint = Except.ok v) ∧
      (∀ msg, parse (net (API_BASE ++ endpoint)).body = Except.error msg →
        fetchAPI net parse endpoint = Except.error (FetchError.parseError msg))) ∧
    PropagatesFetch (getHealthChecks net parse) parse (net (API_BASE ++ "/healthchecks")) ∧
    PropagatesFetch (runHealthCheck net parse) parse (net (API_BASE ++ "/healthchecks/run")) ∧
    PropagatesFetch (runAllHealthChecks net parse) parse
      (net (API_BASE ++ "/healthchecks/run-all")) ∧
    (∀ checkId limit : Nat, PropagatesFetch (getCheckHistory net parse checkId limit) parse
      (net (API_BASE ++
        ("/healthchecks/" ++ natToStr checkId ++ "/history?limit=" ++ natToStr limit)))) ∧
    (∀ status severity : Option String,
      PropagatesFetch (getIncidents net parse status severity) parse
        (net (API_BASE ++ ("/incidents" ++ incidentsQuery status severity)))) ∧
    PropagatesFetch (createIncident net parse) parse (net (API_BASE ++ "/incidents")) ∧
    PropagatesFetch (remediate net parse) parse (net (API_BASE ++ "/remediate")) ∧
    (∀ incidentId : Nat, PropagatesFetch (resolveIncident net parse incidentId) parse
      (net (API_BASE ++ ("/incidents/" ++ natToStr incidentId ++ "/resolve")))) ∧
    PropagatesFetch (getIncidentsSummary net parse) parse
      (net (API_BASE ++ "/incidents/summary")) ∧
    PropagatesFetch (getInfrastructureSummary net parse) parse
      (net (API_BASE ++ "/infrastructure/summary")) ∧
    (∀ provider : Option String, PropagatesFetch (getInstanceMetrics net parse provider) parse
      (net (API_BASE ++ ("/infrastructure/metrics" ++ providerQuery provider)))) ∧
    PropagatesFetch (getRightsizingOpportunities net parse) parse
      (net (API_BASE ++ "/rightsizing/opportunities")) ∧
    PropagatesFetch (getCostSummary net parse) parse
      (net (API_BASE ++ "/infrastructure/cost-summary")) ∧
    PropagatesFetch (injectFailure net parse) parse (net (API_BASE ++ "/inject-failure")) ∧
    PropagatesFetch (clearFailures net parse) parse (net (API_BASE ++ "/clear-failures")) ∧
    PropagatesFetch (getModelHealth net parse) parse (net (API_BASE ++ "/model-health")) := by
  refine ⟨?_, ?_, ?_, fetchAPI_propagates net parse "/healthchecks",
    fetchAPI_propagates net parse "/healthchecks/run",
    fetchAPI_propagates net parse "/healthchecks/run-all",
    fun checkId limit => fetchAPI_propagates net parse
      ("/healthchecks/" ++ natToStr checkId ++ "/history?limit=" ++ natToStr limit),
    fun status severity => fetchAPI_propagates net parse
      ("/incidents" ++ incidentsQuery status severity),
    fetchAPI_propagates net parse "/incidents",
    fetchAPI_propagates net parse "/remediate",
    fun incidentId => fetchAPI_propagates net parse
      ("/incidents/" ++ natToStr incidentId ++ "/resolve"),
    fetchAPI_propagates net parse "/incidents/summary",
    fetchAPI_propagates net parse "/infrastructure/summary",
    fun provider => fetchAPI_propagates net parse
      ("/infrastructure/metrics" ++ providerQuery provider),
    fetchAPI_propagates net parse "/rightsizing/opportunities",
    fetchAPI_propagates net parse "/infrastructure/cost-summary",
    fetchAPI_propagates net parse "/inject-failure",
    fetchAPI_propagates net parse "/clear-failures",
    fetchAPI_propagates net parse "/model-health"⟩
  · by_cases hok : (net (API_BASE ++ endpoint)).ok = true
    · constructor
      · rintro ⟨st, stx, h⟩
        rw [fetchAPI, if_pos hok] at h
        cases hp : parse (net (API_BASE ++ endpoint)).body with
        | ok v =>
          rw [hp] at h
          exact Except.noConfusion h
        | error msg =>
          rw [hp] at h
          injection h with h1
          exact FetchError.noConfusion h1
      · intro hfalse
        rw [hok] at hfalse
        exact Bool.noConfusion hfalse
    · have hokf : (net (API_BASE ++ endpoint)).ok = false := by
        cases hb : (net (API_BASE ++ endpoint)).ok
        · rfl
        · exact absurd hb hok
      constructor
      · intro _; exact hokf
      · intro _
        exact ⟨(net (API_BASE ++ endpoint)).status, (net (API_BASE ++ endpoint)).statusText,
          by rw [fetchAPI, if_neg hok]⟩
  · intro st stx h
    by_cases hok : (net (API_BASE ++ endpoint)).ok = true
    · rw [fetchAPI, if_pos hok] at h
      cases hp : parse (net (API_BASE ++ endpoint)).body with
      | ok v =>
        rw [hp] at h
        exact Except.noConfusion h
      | error msg =>
        rw [hp] at h
        injection h with h1
        exact FetchError.noConfusion h1
    · rw [fetchAPI, if_neg hok] at h
      injection h with h1
      injection h1 with h2 h3
      exact ⟨h2.symm, h3.symm, by rw [← h2, ← h3]; rfl⟩
  · intro hok
    constructor
    · intro v hv
      rw [fetchAPI, if_pos hok, hv]
    · intro msg hm
      rw [fetchAPI, if_pos hok, hm]

/-- Counterexample for C10 as stated: on an ok response whose body is not
valid JSON, fetchAPI surfaces the rejection of response.json(), so it
throws even though response.ok is true and the result is neither parsed
JSON nor the status Error. -/
theorem fetchAPI_parse_rejection_cex :
    (netBadFix (API_BASE ++ "/model-health")).ok = true ∧
    fetchAPI netBadFix parseFix "/model-health" =
      Except.error (FetchError.parseError "Unexpected token") := by
  exact ⟨rfl, rfl⟩

/-- Witness for C10 on the fixture network: the healthchecks endpoint
returns the parsed body, any other endpoint fails with the status Error
carrying the formatted message. -/
theorem fetchAPI_spec_witness :
    fetchAPI netFix parseFix "/healthchecks" = Except.ok "[]" ∧
    ((∃ st stx, fetchAPI netFix parseFix "/nope" =
        Except.error (FetchError.httpError st stx)) ↔
      (netFix (API_BASE ++ "/nope")).ok = false) ∧
    (FetchError.httpError 500 "Internal Server Error").message =
      "API Error: " ++ natToStr (netFix (API_BASE ++ "/nope")).status ++ " " ++
        (netFix (API_BASE ++ "/nope")).statusText := by
  have h1 := fetchAPI_spec String netFix parseFix "/healthchecks"
  have h2 := fetchAPI_spec String netFix parseFix "/nope"
  refine ⟨(h1.2.2.1 (by decide)).1 "[]" (by rfl), h2.1, ?_⟩
  exact (h2.2.1 500 "Internal Server Error" (by rfl)).2.2

end Frontend

namespace Core

/-- Counting a Bool predicate and its negation partitions a list. -/
theorem countP_add_countP_not {α : Type} (p : α → Bool) (l : List α) :
    l.countP p + l.countP (fun a => !p a) = l.length := by
  induction l with
  | nil => rfl
  | cons a l ih =>
    by_cases h : p a = true <;>
      · simp [List.countP_cons, h]
        omega

/-- runOne stamps the id of the evaluated check on the CheckRun it writes. -/
theorem runOne_health_check_id (eval : HealthCheck → Except String ℚ) (hc : HealthCheck) :
    (runOne eval hc).health_check_id = hc.id := by
  unfold runOne
  cases eval hc <;> rfl

/-- Claim C4: run_all writes exactly one CheckRun per enabled HealthCheck
and none for disabled ones; an evaluation exception is captured on the
CheckRun as status error with error_message set and does not abort the
batch; the aggregate reports total, passed and failed counts over the
produced runs. -/
theorem run_all_spec (eval : HealthCheck → Except String ℚ) (checks : List HealthCheck) :
    (run_all eval checks).runs.length = (checks.filter (fun hc => hc.enabled)).length ∧
    (run_all eval checks).runs.map (fun r => r.health_check_id) =
      (checks.filter (fun hc => hc.enabled)).map (fun hc => hc.id) ∧
    (∀ hc ∈ checks, hc.enabled = true → runOne eval hc ∈ (run_all eval checks).runs) ∧
    (∀ r ∈ (run_all eval checks).runs, ∃ hc ∈ checks, hc.enabled = true ∧ r = runOne eval hc) ∧
    (∀ hc : HealthCheck, ∀ msg : String, eval hc = Except.error msg →
      (runOne eval hc).status = RunStatus.error ∧ (runOne eval hc).error_message = some msg) ∧
    (run_all eval checks).total = (run_all eval checks).runs.length ∧
    (run_all eval checks).passed + (run_all eval checks).failed = (run_all eval checks).total := by
  refine ⟨?_, ?_, ?_, ?_, ?_, rfl, ?_⟩
  · exact List.length_map _ _
  · rw [show (run_all eval checks).runs = (checks.filter (fun hc => hc.enabled)).map (runOne eval)
        from rfl, List.map_map]
    exact List.map_congr_left fun hc _ => runOne_health_check_id eval hc
  · intro hc hmem hen
    exact List.mem_map_of_mem (runOne eval) (List.mem_filter.mpr ⟨hmem, hen⟩)
  · intro r hr
    rcases List.mem_map.mp hr with ⟨hc, hmem, heq⟩
    rcases List.mem_filter.mp hmem with ⟨hmem', hen⟩
    exact ⟨hc, hmem', hen, heq.symm⟩
  · intro hc msg hmsg
    constructor <;> · unfold runOne; rw [hmsg]
  · exact countP_add_countP_not _ _

/-- Witness for C4 on the checksFix fixture: two runs for the two enabled
checks, the throwing check is captured as an errored run inside the batch,
and the counts add up. -/
theorem run_all_spec_witness :
    (run_all evalFix checksFix).runs.length =
      (checksFix.filter (fun hc => hc.enabled)).length ∧
    runOne evalFix hcErr ∈ (run_all evalFix checksFix).runs ∧
    (runOne evalFix hcErr).status = RunStatus.error ∧
    (runOne evalFix hcErr).error_message = some "sampling failed" ∧
    (run_all evalFix checksFix).passed + (run_all evalFix checksFix).failed =
      (run_all evalFix checksFix).total := by
  have h := run_all_spec evalFix checksFix
  have herr := h.2.2.2.2.1 hcErr "sampling failed" (by rfl)
  exact ⟨h.1, h.2.2.1 hcErr (by decide) (by decide), herr.1, herr.2, h.2.2.2.2.2.2⟩

/-- Every list element is bounded by the zero-seeded fold of max. -/
theorem foldr_max_le (f : ℚ → ℚ) (l : List ℚ) :
    ∀ x ∈ l, f x ≤ l.foldr (fun y acc => max (f y) acc) 0 := by
  induction l with
  | nil => intro x hx; cases hx
  | cons a l ih =>
    intro x hx
    rcases List.mem_cons.mp hx with h | h
    · subst h; exact le_max_left _ _
    · exact le_trans (ih x h) (le_max_right _ _)

/-- Over a non-empty list of nonnegative values the zero-seeded fold of max
is attained at some element. -/
theorem foldr_max_attained (f : ℚ → ℚ) (l : List ℚ) (h0 : ∀ x ∈ l, 0 ≤ f x) (hne : l ≠ []) :
    ∃ x ∈ l, l.foldr (fun y acc => max (f y) acc) 0 = f x := by
  induction l with
  | nil => exact absurd rfl hne
  | cons a l ih =>
    cases l with
    | nil =>
      refine ⟨a, List.mem_cons_self a [], ?_⟩
      exact max_eq_left (h0 a (List.mem_cons_self a []))
    | cons b l2 =>
      obtain ⟨y, hy, hfy⟩ :=
        ih (fun x hx => h0 x (List.mem_cons_of_mem a hx)) (by simp)
      rcases le_total (f a) (f y) with hle | hle
      · exact ⟨y, List.mem_cons_of_mem a hy,
          by rw [List.foldr_cons, hfy]; exact max_eq_right hle⟩
      · exact ⟨a, List.mem_cons_self a _,
          by rw [List.foldr_cons, hfy]; exact max_eq_left hle⟩

/-- Comparing a sample against itself gives a KS distance of zero. -/
theorem ksStat_self (s : List ℚ) : ksStat s s = 0 := by
  have hz : ∀ l : List ℚ, l.foldr (fun x acc => max |ecdf s x - ecdf s x| acc) 0 = 0 := by
    intro l
    induction l with
    | nil => rfl
    | cons a l ih => rw [List.foldr_cons, ih]; simp
  exact hz (ksPoints s s)

/-- Claim C5, amended: the Drift Detector is a pure function of its two
samples; a sample compared with itself that meets the minimum-size
precondition yields D equal to zero, and passed is true whenever the
configured threshold is positive; for all accepted inputs D bounds the
absolute empirical-CDF difference at every evaluation point, is attained
at one of them when the samples are non-empty, and passed holds exactly
when D is strictly below the threshold. -/
theorem drift_detector_ks (minSize : Nat) (threshold : ℚ) (s baseline current : List ℚ) :
    (s ≠ [] → minSize ≤ s.length → 0 < threshold →
      detectDrift minSize threshold s s = Except.ok ⟨0, true⟩) ∧
    (∀ r : DriftResult, detectDrift minSize threshold baseline current = Except.ok r →
      r.passed = decide (r.D < threshold) ∧
      (∀ x ∈ ksPoints baseline current, |ecdf baseline x - ecdf current x| ≤ r.D) ∧
      (baseline ≠ [] →
        ∃ x ∈ ksPoints baseline current, r.D = |ecdf baseline x - ecdf current x|)) := by
  constructor
  · intro _ hmin hthr
    rw [detectDrift, if_neg (by omega), ksStat_self]
    rw [decide_eq_true hthr]
  · intro r hr
    by_cases hcond : baseline.length < minSize ∨ current.length < minSize
    · rw [detectDrift, if_pos hcond] at hr
      exact absurd hr (by simp)
    · rw [detectDrift, if_neg hcond] at hr
      cases hr
      refine ⟨rfl, ?_, ?_⟩
      · exact foldr_max_le _ (ksPoints baseline current)
      · intro hb
        have hne : ksPoints baseline current ≠ [] := by
          rw [ksPoints]
          intro hnil
          rcases (List.dedup_eq_nil (baseline ++ current)).mp hnil with h
          exact hb (List.append_eq_nil.mp h).1
        obtain ⟨x, hx, hfx⟩ :=
          foldr_max_attained (fun x => |ecdf baseline x - ecdf current x|)
            (ksPoints baseline current) (fun x _ => abs_nonneg _) hne
        exact ⟨x, hx, hfx⟩

/-- Counterexample for C5 as stated: with a configured threshold of zero,
comparing a one-point sample with itself yields D equal to zero but passed
false, since the verdict is the strict comparison D below threshold. -/
theorem drift_detector_zero_threshold_cex :
    detectDrift 1 0 [(0 : ℚ)] [(0 : ℚ)] = Except.ok ⟨0, false⟩ := by
  rw [detectDrift, if_neg (by decide), ksStat_self]
  rfl

/-- Witness for C5 on a one-point sample with threshold one: the self
comparison is accepted with D zero and passed true, the distance bounds
every evaluation point and is attained at one. -/
theorem drift_detector_ks_witness :
    detectDrift 1 1 [(0 : ℚ)] [(0 : ℚ)] = Except.ok ⟨0, true⟩ ∧
    (∀ x ∈ ksPoints [(0 : ℚ)] [(0 : ℚ)], |ecdf [(0 : ℚ)] x - ecdf [(0 : ℚ)] x| ≤ (0 : ℚ)) ∧
    (∃ x ∈ ksPoints [(0 : ℚ)] [(0 : ℚ)], (0 : ℚ) = |ecdf [(0 : ℚ)] x - ecdf [(0 : ℚ)] x|) := by
  have h := drift_detector_ks 1 1 [(0 : ℚ)] [(0 : ℚ)] [(0 : ℚ)]
  have h1 := h.1 (by decide) (by decide) (by decide)
  have h2 := h.2 ⟨0, true⟩ h1
  exact ⟨h1, h2.2.1, h2.2.2 (by decide)⟩

/-- Claim C7: every RightsizingOpportunity the analysis emits recommends a
type strictly smaller than the current one whose projected utilization
stays below the safety ceiling, and no opportunity is emitted when no
catalog type qualifies. -/
theorem rightsizing_safety (catalog : List InstanceTypeSpec) (idleT highT ceiling hpm : ℚ)
    (minS : Nat) (m : InstanceAggregate) :
    (∀ opp : RightsizingOpportunity,
      analyzeInstance catalog idleT highT ceiling hpm minS m = some opp →
        opp.current_type = m.current_type ∧
        opp.recommended_type.capacity < m.current_type.capacity ∧
        projectedUtil m.p95Cpu m.current_type.capacity opp.recommended_type.capacity < ceiling) ∧
    ((∀ t ∈ catalog, ¬(t.capacity < m.current_type.capacity ∧
        projectedUtil m.p95Cpu m.current_type.capacity t.capacity < ceiling)) →
      analyzeInstance catalog idleT highT ceiling hpm minS m = none) := by
  constructor
  · intro opp hopp
    by_cases h1 : m.avgCpu < idleT
    · rw [analyzeInstance, if_pos h1] at hopp
      exact absurd hopp (by simp)
    · by_cases h2 : highT < m.p95Cpu
      · rw [analyzeInstance, if_neg h1, if_pos h2] at hopp
        exact absurd hopp (by simp)
      · rw [analyzeInstance, if_neg h1, if_neg h2] at hopp
        cases hfind : findSmallerType catalog m.current_type m.p95Cpu ceiling with
        | none => rw [hfind] at hopp; exact absurd hopp (by simp)
        | some t =>
          rw [hfind] at hopp
          cases hopp
          rw [findSmallerType] at hfind
          have hp := List.find?_some hfind
          rw [Bool.and_eq_true, decide_eq_true_eq, decide_eq_true_eq] at hp
          exact ⟨rfl, hp.1, hp.2⟩
  · intro hno
    by_cases h1 : m.avgCpu < idleT
    · rw [analyzeInstance, if_pos h1]
    · by_cases h2 : highT < m.p95Cpu
      · rw [analyzeInstance, if_neg h1, if_pos h2]
      · rw [analyzeInstance, if_neg h1, if_neg h2]
        have hfind : findSmallerType catalog m.current_type m.p95Cpu ceiling = none := by
          rw [findSmallerType]
          apply List.find?_eq_none.mpr
          intro t ht hbool
          rw [Bool.and_eq_true, decide_eq_true_eq, decide_eq_true_eq] at hbool
          exact hno t ht hbool
        rw [hfind]

/-- Witness for C7 on the fixture catalog: the emitted opportunity moves
from the four-unit to the two-unit type below the ceiling of 80, and the
empty catalog emits nothing. -/
theorem rightsizing_safety_witness :
    (oppFix.current_type = mFix.current_type ∧
      oppFix.recommended_type.capacity < mFix.current_type.capacity ∧
      projectedUtil mFix.p95Cpu mFix.current_type.capacity oppFix.recommended_type.capacity < 80) ∧
    analyzeInstance [] 0 0 80 730 20 mFix = none := by
  constructor
  · apply (rightsizing_safety catalogFix 0 0 80 730 20 mFix).1 oppFix
    rw [analyzeInstance, if_neg (by decide), if_neg (by decide)]
    have hfs : findSmallerType catalogFix mFix.current_type mFix.p95Cpu 80 = some typeSmall := by
      rw [findSmallerType]
      show List.find? _ (typeSmall :: []) = some typeSmall
      apply List.find?_cons_of_pos
      rw [Bool.and_eq_true]
      refine ⟨by decide, decide_eq_true ?_⟩
      show projectedUtil mFix.p95Cpu mFix.current_type.capacity typeSmall.capacity < 80
      norm_num [projectedUtil, mFix, typeBig, typeSmall]
    rw [hfs]
    rfl
  · exact (rightsizing_safety [] 0 0 80 730 20 mFix).2 (by simp)

/-- Mapping a function that never turns the predicate on cannot increase a
countP. -/
theorem countP_map_le_of_imp {α : Type} (p : α → Bool) (g : α → α) (l : List α)
    (himp : ∀ a, p (g a) = true → p a = true) :
    (l.map g).countP p ≤ l.countP p := by
  rw [List.countP_map]
  exact List.countP_mono_left fun a _ ha => himp a ha

/-- Mapping a function that preserves the predicate preserves a countP. -/
theorem countP_map_eq_of_eq {α : Type} (p : α → Bool) (g : α → α) (l : List α)
    (hpres : ∀ a, p (g a) = p a) :
    (l.map g).countP p = l.countP p := by
  rw [List.countP_map]
  exact List.countP_congr fun a _ => by simp [hpres a]

/-- Attaching a CheckRun changes no status and no health check reference,
so the active count per health check is unchanged. -/
theorem countP_attachRun (h target runId : Nat) (l : List Incident) :
    (attachRun target runId l).countP (isActiveFor h) = l.countP (isActiveFor h) := by
  apply countP_map_eq_of_eq
  intro a
  by_cases hc : (decide (a.id = target) && !a.status.isTerminal) = true
  · rw [if_pos hc]; rfl
  · rw [if_neg hc]

/-- A guarded per-incident update that keeps the health check reference can
only lower the active count: the guard skips terminal incidents, so no
update revives one. -/
theorem setIncident_active_le (h target : Nat) (f : Incident → Incident) (l : List Incident)
    (hf : ∀ a, (f a).healthCheckId = a.healthCheckId) :
    (setIncident target f l).countP (isActiveFor h) ≤ l.countP (isActiveFor h) := by
  apply countP_map_le_of_imp
  intro a ha
  by_cases hc : (decide (a.id = target) && !a.status.isTerminal) = true
  · rw [if_pos hc] at ha
    rw [isActiveFor, Bool.and_eq_true, decide_eq_true_eq] at ha
    rw [Bool.and_eq_true] at hc
    rw [isActiveFor, Bool.and_eq_true, decide_eq_true_eq]
    exact ⟨hf a ▸ ha.1, hc.2⟩
  · rwa [if_neg hc] at ha

/-- Terminal incidents are untouched by a guarded per-incident update. -/
theorem setIncident_mem_of_terminal {i : Incident} (target : Nat) (f : Incident → Incident)
    (l : List Incident) (ht : i.status.isTerminal = true) (hi : i ∈ l) :
    i ∈ setIncident target f l := by
  have hfix : (if decide (i.id = target) && !i.status.isTerminal then f i else i) = i := by
    rw [ht]
    simp
  have hm : (if decide (i.id = target) && !i.status.isTerminal then f i else i) ∈
      setIncident target f l :=
    List.mem_map_of_mem
      (fun a => if decide (a.id = target) && !a.status.isTerminal then f a else a) hi
  rwa [hfix] at hm

/-- The incident list after a remediate call is either unchanged or a
guarded per-incident update that preserves health check references. -/
theorem remediate_incidents_shape (s : SysState) (incidentId : Nat) (strategy : String)
    (dryRun outcome : Bool) :
    (remediate s incidentId strategy dryRun outcome).state.incidents = s.incidents ∨
    ∃ (target : Nat) (f : Incident → Incident),
      (∀ a, (f a).healthCheckId = a.healthCheckId) ∧
      (remediate s incidentId strategy dryRun outcome).state.incidents =
        setIncident target f s.incidents := by
  cases hfind : findIncident s incidentId with
  | none => left; rw [remediate, hfind]
  | some i =>
    cases ht : i.status.isTerminal with
    | true => left; rw [remediate, hfind]; simp [ht]
    | false =>
      cases hp : parseStrategy strategy with
      | none => left; rw [remediate, hfind]; simp [ht, hp]
      | some strat =>
        cases dryRun with
        | true =>
          right
          exact ⟨i.id, dryStep strat, fun a => rfl, by rw [remediate, hfind]; simp [ht, hp]⟩
        | false =>
          right
          exact ⟨i.id, realStep strat outcome, fun a => rfl,
            by rw [remediate, hfind]; simp [ht, hp]⟩

/-- The incident list after a manual resolution is either unchanged or a
guarded per-incident update that preserves health check references. -/
theorem resolveManual_incidents_shape (s : SysState) (incidentId : Nat) :
    (resolveManual s incidentId).state.incidents = s.incidents ∨
    ∃ (target : Nat) (f : Incident → Incident),
      (∀ a, (f a).healthCheckId = a.healthCheckId) ∧
      (resolveManual s incidentId).state.incidents = setIncident target f s.incidents := by
  cases hfind : findIncident s incidentId with
  | none => left; rw [resolveManual, hfind]
  | some i =>
    cases ht : i.status.isTerminal with
    | true => left; rw [resolveManual, hfind]; simp [ht]
    | false =>
      right
      exact ⟨i.id, fun j => { j with status := .resolved, resolvedStamp := true },
        fun a => rfl, by rw [resolveManual, hfind]; simp [ht]⟩

/-- One transition preserves the at-most-one-active-incident bound. -/
theorem step_atMostOne {s t : SysState} (hst : Step s t) (hs : ∀ h, countActive s h ≤ 1) :
    ∀ h, countActive t h ≤ 1 := by
  intro h
  cases hst with
  | failingRun run =>
    cases hfind : findNonTerminal s run.healthCheckId with
    | some i =>
      have heq : countActive (handleFailingRun s run) h = countActive s h := by
        rw [countActive, countActive]
        simp only [handleFailingRun, hfind]
        exact countP_attachRun h i.id run.runId s.incidents
      rw [heq]
      exact hs h
    | none =>
      have hcount0 : s.incidents.countP (isActiveFor run.healthCheckId) = 0 := by
        apply List.countP_eq_zero.mpr
        intro a ha
        rw [findNonTerminal] at hfind
        exact List.find?_eq_none.mp hfind a ha
      rw [countActive]
      simp only [handleFailingRun, hfind]
      rw [List.countP_cons]
      by_cases hh : h = run.healthCheckId
      · subst hh
        rw [hcount0]
        simp [isActiveFor, IncidentStatus.isTerminal]
      · have hfalse : isActiveFor h
            { id := s.nextIncidentId, healthCheckId := run.healthCheckId,
              severity := gradeSeverity run.checkType, status := .opened,
              checkRunIds := [run.runId], attempts := [], resolvedStamp := false } = false := by
          rw [isActiveFor]
          have : decide (run.healthCheckId = h) = false :=
            decide_eq_false fun hc => hh hc.symm
          rw [this]
          rfl
        rw [hfalse]
        simpa using hs h
  | remediateCall incidentId strategy dryRun outcome =>
    rcases remediate_incidents_shape s incidentId strategy dryRun outcome with
      heq | ⟨target, f, hf, heq⟩
    · rw [countActive, heq]; exact hs h
    · rw [countActive, heq]
      exact le_trans (setIncident_active_le h target f s.incidents hf) (hs h)
  | resolveCall incidentId =>
    rcases resolveManual_incidents_shape s incidentId with heq | ⟨target, f, hf, heq⟩
    · rw [countActive, heq]; exact hs h
    · rw [countActive, heq]
      exact le_trans (setIncident_active_le h target f s.incidents hf) (hs h)

/-- Every reachable store has at most one active incident per health check. -/
theorem reachable_atMostOne {s : SysState} (hr : Reachable s) : ∀ h, countActive s h ≤ 1 := by
  induction hr with
  | init => intro h; simp [countActive, initState]
  | next _ hstep ih => exact step_atMostOne hstep ih

/-- Claim C1: at every reachable store state each HealthCheck has at most
one non-terminal Incident, and a failing CheckRun arriving while a
non-terminal Incident exists for its HealthCheck is attached to that
Incident without creating a second one. -/
theorem incident_dedup_invariant (s : SysState) (hr : Reachable s) :
    (∀ h : Nat, countActive s h ≤ 1) ∧
    (∀ (run : FailingRun) (i : Incident),
      findNonTerminal s run.healthCheckId = some i →
        (handleFailingRun s run).incidents.length = s.incidents.length ∧
        ∃ j ∈ (handleFailingRun s run).incidents,
          j.id = i.id ∧ j.healthCheckId = i.healthCheckId ∧ j.status = i.status ∧
          j.checkRunIds = run.runId :: i.checkRunIds) := by
  refine ⟨reachable_atMostOne hr, ?_⟩
  intro run i hfind
  have hfind' : s.incidents.find? (isActiveFor run.healthCheckId) = some i := hfind
  have hmem := List.mem_of_find?_eq_some hfind'
  have hact := List.find?_some hfind'
  rw [isActiveFor, Bool.and_eq_true] at hact
  have hguard : (decide (i.id = i.id) && !i.status.isTerminal) = true := by
    rw [Bool.and_eq_true]
    exact ⟨decide_eq_true rfl, hact.2⟩
  constructor
  · simp only [handleFailingRun, hfind]
    simp [attachRun]
  · refine ⟨{ i with checkRunIds := run.runId :: i.checkRunIds }, ?_, rfl, rfl, rfl, rfl⟩
    simp only [handleFailingRun, hfind]
    have hm : (if decide (i.id = i.id) && !i.status.isTerminal then
        { i with checkRunIds := run.runId :: i.checkRunIds } else i) ∈
        attachRun i.id run.runId s.incidents :=
      List.mem_map_of_mem
        (fun a => if decide (a.id = i.id) && !a.status.isTerminal then
          { a with checkRunIds := run.runId :: a.checkRunIds } else a) hmem
    rwa [if_pos hguard] at hm

/-- Witness for C1 after one failing run of health check 5: the active
count is bounded and a second failing run attaches to the open incident
without growing the incident list. -/
theorem incident_dedup_invariant_witness :
    countActive sA 5 ≤ 1 ∧
    (handleFailingRun sA runB).incidents.length = sA.incidents.length ∧
    ∃ j ∈ (handleFailingRun sA runB).incidents,
      j.id = incA.id ∧ j.healthCheckId = incA.healthCheckId ∧ j.status = incA.status ∧
      j.checkRunIds = runB.runId :: incA.checkRunIds := by
  have h := incident_dedup_invariant sA (Reachable.next Reachable.init (Step.failingRun runA))
  have h2 := h.2 runB incA (by decide)
  exact ⟨h.1 5, h2.1, h2.2⟩

/-- find? commutes with a map that preserves the search predicate. -/
theorem find?_map_of_pres {α : Type} (q : α → Bool) (g : α → α) (l : List α)
    (hq : ∀ a, q (g a) = q a) :
    (l.map g).find? q = (l.find? q).map g := by
  induction l with
  | nil => rfl
  | cons a l ih =>
    cases hqa : q a with
    | true =>
      rw [List.map_cons, List.find?_cons_of_pos _ (by rw [hq a, hqa]),
        List.find?_cons_of_pos _ hqa]
      rfl
    | false =>
      rw [List.map_cons, List.find?_cons_of_neg _ (by simp [hq a, hqa]),
        List.find?_cons_of_neg _ (by simp [hqa]), ih]

/-- Lookup by id through a guarded per-incident update whose body preserves
ids returns the image of the original lookup. -/
theorem findIncident_setIncident (s : SysState) (incidentId target : Nat)
    (f : Incident → Incident) (hf : ∀ a, (f a).id = a.id) :
    (setIncident target f s.incidents).find? (fun j => decide (j.id = incidentId)) =
      (s.incidents.find? (fun j => decide (j.id = incidentId))).map
        (fun a => if decide (a.id = target) && !a.status.isTerminal then f a else a) := by
  apply find?_map_of_pres
  intro a
  by_cases hc : (decide (a.id = target) && !a.status.isTerminal) = true
  · rw [if_pos hc, hf a]
  · rw [if_neg hc]

/-- Claim C2: an incident whose failed real attempt count has reached
MAX_REMEDIATION_RETRIES after a real remediate call is escalated; an
escalated incident persists unchanged through every further transition;
and remediate refuses an escalated incident with UnknownIncidentError,
leaving the store untouched. -/
theorem escalation_contract :
    (∀ (s : SysState) (incidentId : Nat) (strategy : String) (i' : Incident),
      (remediate s incidentId strategy false false).err = none →
      findIncident (remediate s incidentId strategy false false).state incidentId = some i' →
      MAX_REMEDIATION_RETRIES ≤ i'.attempts.countP isFailedReal →
      i'.status = .escalated) ∧
    (∀ s t : SysState, Step s t → ∀ i ∈ s.incidents, i.status = .escalated → i ∈ t.incidents) ∧
    (∀ (s : SysState) (incidentId : Nat) (strategy : String) (dryRun outcome : Bool)
      (i : Incident), findIncident s incidentId = some i → i.status = .escalated →
      remediate s incidentId strategy dryRun outcome = ⟨s, [], some .UnknownIncidentError⟩) := by
  refine ⟨?_, ?_, ?_⟩
  · intro s incidentId strategy i' herr hpost hcount
    cases hfind : findIncident s incidentId with
    | none => rw [remediate, hfind] at herr; exact absurd herr (by simp)
    | some i =>
      cases ht : i.status.isTerminal with
      | true => rw [remediate, hfind] at herr; simp [ht] at herr
      | false =>
        cases hp : parseStrategy strategy with
        | none => rw [remediate, hfind] at herr; simp [ht, hp] at herr
        | some stratV =>
          have hred : (remediate s incidentId strategy false false).state.incidents =
              setIncident i.id (realStep stratV false) s.incidents := by
            rw [remediate, hfind]; simp [ht, hp]
          rw [findIncident, hred, findIncident_setIncident s incidentId i.id
            (realStep stratV false) (fun a => rfl)] at hpost
          have hq : s.incidents.find? (fun j => decide (j.id = incidentId)) = some i := hfind
          rw [hq] at hpost
          have hguard : (decide (i.id = i.id) && !i.status.isTerminal) = true := by
            rw [Bool.and_eq_true, ht]
            exact ⟨decide_eq_true rfl, rfl⟩
          have hpost2 : (if decide (i.id = i.id) && !i.status.isTerminal then
              realStep stratV false i else i) = i' := by
            injection hpost
          rw [if_pos hguard] at hpost2
          cases hpost2
          have hcount' : MAX_REMEDIATION_RETRIES ≤
              ((i.attempts ++ [(⟨stratV, false, false⟩ : RemediationAttempt)]).countP isFailedReal) := hcount
          show (if MAX_REMEDIATION_RETRIES ≤
              ((i.attempts ++ [(⟨stratV, false, false⟩ : RemediationAttempt)]).countP isFailedReal) then
              IncidentStatus.escalated else IncidentStatus.opened) = IncidentStatus.escalated
          rw [if_pos hcount']
  · intro s t hst i hi hesc
    have hterm : i.status.isTerminal = true := by rw [hesc]; rfl
    cases hst with
    | failingRun run =>
      cases hfind : findNonTerminal s run.healthCheckId with
      | some j =>
        simp only [handleFailingRun, hfind]
        exact setIncident_mem_of_terminal j.id
          (fun a => { a with checkRunIds := run.runId :: a.checkRunIds }) s.incidents hterm hi
      | none =>
        simp only [handleFailingRun, hfind]
        exact List.mem_cons_of_mem _ hi
    | remediateCall incidentId strategy dryRun outcome =>
      rcases remediate_incidents_shape s incidentId strategy dryRun outcome with
        heq | ⟨target, f, _, heq⟩
      · rw [heq]; exact hi
      · rw [heq]; exact setIncident_mem_of_terminal target f s.incidents hterm hi
    | resolveCall incidentId =>
      rcases resolveManual_incidents_shape s incidentId with heq | ⟨target, f, _, heq⟩
      · rw [heq]; exact hi
      · rw [heq]; exact setIncident_mem_of_terminal target f s.incidents hterm hi
  · intro s incidentId strategy dryRun outcome i hfind hesc
    have ht : i.status.isTerminal = true := by rw [hesc]; rfl
    rw [remediate, hfind]
    simp [ht]

/-- Witness for C2: the third failed real attempt on incTwoFails escalates
it, an escalated incident survives a further failing-run transition
unchanged, and remediation against it is refused. -/
theorem escalation_contract_witness :
    incAfterThird.status = IncidentStatus.escalated ∧
    incEsc ∈ (handleFailingRun sEsc runA).incidents ∧
    remediate sEsc 0 "restart_service" false true = ⟨sEsc, [], some .UnknownIncidentError⟩ := by
  have h := escalation_contract
  refine ⟨?_, ?_, ?_⟩
  · exact h.1 sTwoFails 0 "restart_service" incAfterThird (by decide) (by decide) (by decide)
  · exact h.2.1 sEsc (handleFailingRun sEsc runA) (Step.failingRun runA) incEsc
      (by decide) (by decide)
  · exact h.2.2 sEsc 0 "restart_service" false true incEsc (by decide) (by decide)

/-- Claim C3: a dry-run remediate on a live incident with a recognized
strategy succeeds, appends exactly one attempt record flagged dry_run, and
changes nothing else: executor state, id counter, every other incident,
and the status, severity, run list, resolution stamp and failed real
attempt count of the incident itself are all unchanged. -/
theorem dry_run_frame (s : SysState) (incidentId : Nat) (strategy : String) (stratV : Strategy)
    (outcome : Bool) (i : Incident) (hfind : findIncident s incidentId = some i)
    (ht : i.status.isTerminal = false) (hp : parseStrategy strategy = some stratV) :
    (remediate s incidentId strategy true outcome).err = none ∧
    (remediate s incidentId strategy true outcome).state.execState = s.execState ∧
    (remediate s incidentId strategy true outcome).state.nextIncidentId = s.nextIncidentId ∧
    (remediate s incidentId strategy true outcome).state.incidents.length =
      s.incidents.length ∧
    (∀ j ∈ s.incidents, j.id ≠ i.id →
      j ∈ (remediate s incidentId strategy true outcome).state.incidents) ∧
    ∃ j ∈ (remediate s incidentId strategy true outcome).state.incidents,
      j.id = i.id ∧ j.status = i.status ∧ j.severity = i.severity ∧
      j.healthCheckId = i.healthCheckId ∧ j.checkRunIds = i.checkRunIds ∧
      j.resolvedStamp = i.resolvedStamp ∧
      j.attempts = i.attempts ++ [(⟨stratV, true, true⟩ : RemediationAttempt)] ∧
      j.attempts.countP isFailedReal = i.attempts.countP isFailedReal := by
  have hred : remediate s incidentId strategy true outcome =
      ⟨{ s with incidents := setIncident i.id (dryStep stratV) s.incidents }, [], none⟩ := by
    rw [remediate, hfind]; simp [ht, hp]
  rw [hred]
  refine ⟨rfl, rfl, rfl, ?_, ?_, ?_⟩
  · simp [setIncident]
  · intro j hj hne
    have hguard : (decide (j.id = i.id) && !j.status.isTerminal) = false := by
      rw [decide_eq_false hne]
      rfl
    have hm : (if decide (j.id = i.id) && !j.status.isTerminal then dryStep stratV j else j) ∈
        setIncident i.id (dryStep stratV) s.incidents :=
      List.mem_map_of_mem _ hj
    rwa [if_neg (by simp [hguard])] at hm
  · have hmem : i ∈ s.incidents := List.mem_of_find?_eq_some (hfind :
      s.incidents.find? (fun j => decide (j.id = incidentId)) = some i)
    have hguard : (decide (i.id = i.id) && !i.status.isTerminal) = true := by
      rw [Bool.and_eq_true, ht]
      exact ⟨decide_eq_true rfl, rfl⟩
    refine ⟨dryStep stratV i, ?_, rfl, rfl, rfl, rfl, rfl, rfl, rfl, ?_⟩
    · have hm : (if decide (i.id = i.id) && !i.status.isTerminal then dryStep stratV i else i) ∈
          setIncident i.id (dryStep stratV) s.incidents :=
        List.mem_map_of_mem _ hmem
      rwa [if_pos hguard] at hm
    · show (i.attempts ++ [(⟨stratV, true, true⟩ : RemediationAttempt)]).countP isFailedReal =
        i.attempts.countP isFailedReal
      rw [List.countP_append]
      simp [isFailedReal]

/-- Witness for C3: a dry run of clear_cache on the open incident of sOpen
records one dry attempt and leaves everything else as it was. -/
theorem dry_run_frame_witness :
    (remediate sOpen 0 "clear_cache" true false).err = none ∧
    (remediate sOpen 0 "clear_cache" true false).state.execState = sOpen.execState ∧
    (remediate sOpen 0 "clear_cache" true false).state.incidents.length =
      sOpen.incidents.length ∧
    ∃ j ∈ (remediate sOpen 0 "clear_cache" true false).state.incidents,
      j.id = incOpen.id ∧ j.status = incOpen.status ∧ j.severity = incOpen.severity ∧
      j.healthCheckId = incOpen.healthCheckId ∧ j.checkRunIds = incOpen.checkRunIds ∧
      j.resolvedStamp = incOpen.resolvedStamp ∧
      j.attempts = incOpen.attempts ++ [(⟨.clear_cache, true, true⟩ : RemediationAttempt)] ∧
      j.attempts.countP isFailedReal = incOpen.attempts.countP isFailedReal := by
  have h := dry_run_frame sOpen 0 "clear_cache" .clear_cache false incOpen
    (by decide) (by decide) (by decide)
  exact ⟨h.1, h.2.1, h.2.2.2.1, h.2.2.2.2.2⟩

/-- Claim C6, amended: remediate fails with UnknownIncidentError exactly
when the incident is absent or terminal; it fails with
UnknownStrategyError exactly when the incident exists non-terminal and the
strategy name is unrecognized, the incident lookup being checked first; on
every failure the store is unchanged; a non-error real call moves the
incident through remediating, while a non-error dry run leaves its status
unchanged. -/
theorem remediate_error_contract (s : SysState) (incidentId : Nat) (strategy : String)
    (dryRun outcome : Bool) :
    ((remediate s incidentId strategy dryRun outcome).err = some .UnknownIncidentError ↔
      findIncident s incidentId = none ∨
      ∃ i, findIncident s incidentId = some i ∧ i.status.isTerminal = true) ∧
    ((remediate s incidentId strategy dryRun outcome).err = some .UnknownStrategyError ↔
      (∃ i, findIncident s incidentId = some i ∧ i.status.isTerminal = false) ∧
      parseStrategy strategy = none) ∧
    (∀ e, (remediate s incidentId strategy dryRun outcome).err = some e →
      (remediate s incidentId strategy dryRun outcome).state = s) ∧
    ((remediate s incidentId strategy dryRun outcome).err = none → dryRun = false →
      IncidentStatus.remediating ∈ (remediate s incidentId strategy dryRun outcome).trace) ∧
    ((remediate s incidentId strategy dryRun outcome).err = none → dryRun = true →
      (remediate s incidentId strategy dryRun outcome).trace = [] ∧
      ∀ i, findIncident s incidentId = some i →
        ∃ j, findIncident (remediate s incidentId strategy dryRun outcome).state incidentId =
          some j ∧ j.status = i.status) := by
  cases hfind : findIncident s incidentId with
  | none =>
    have hred : remediate s incidentId strategy dryRun outcome =
        ⟨s, [], some .UnknownIncidentError⟩ := by
      rw [remediate, hfind]
    rw [hred]
    refine ⟨⟨fun _ => Or.inl rfl, fun _ => rfl⟩, ?_, fun e _ => rfl, by simp, by simp⟩
    constructor
    · intro h; exact RemError.noConfusion (Option.some.inj h)
    · rintro ⟨⟨i1, hi1, -⟩, -⟩
      cases hi1
  | some i =>
    cases ht : i.status.isTerminal with
    | true =>
      have hred : remediate s incidentId strategy dryRun outcome =
          ⟨s, [], some .UnknownIncidentError⟩ := by
        rw [remediate, hfind]; simp [ht]
      rw [hred]
      refine ⟨⟨fun _ => Or.inr ⟨i, rfl, ht⟩, fun _ => rfl⟩, ?_, fun e _ => rfl,
        by simp, by simp⟩
      constructor
      · intro h; exact RemError.noConfusion (Option.some.inj h)
      · rintro ⟨⟨i1, hi1, ht1⟩, -⟩
        injection hi1 with h1
        rw [← h1, ht] at ht1
        cases ht1
    | false =>
      cases hp : parseStrategy strategy with
      | none =>
        have hred : remediate s incidentId strategy dryRun outcome =
            ⟨s, [], some .UnknownStrategyError⟩ := by
          rw [remediate, hfind]; simp [ht, hp]
        rw [hred]
        refine ⟨?_, ⟨fun _ => ⟨⟨i, rfl, ht⟩, rfl⟩, fun _ => rfl⟩, fun e _ => rfl,
          by simp, by simp⟩
        constructor
        · intro h; exact RemError.noConfusion (Option.some.inj h)
        · rintro (hnone | ⟨i1, hi1, ht1⟩)
          · cases hnone
          · injection hi1 with h1
            rw [← h1, ht] at ht1
            cases ht1
      | some stratV =>
        have hiff1 : ¬((some i : Option Incident) = none ∨
            ∃ i1, (some i : Option Incident) = some i1 ∧ i1.status.isTerminal = true) := by
          rintro (hnone | ⟨i1, hi1, ht1⟩)
          · cases hnone
          · injection hi1 with h1
            rw [← h1, ht] at ht1
            cases ht1
        have hiff2 : ¬((∃ i1, (some i : Option Incident) = some i1 ∧
            i1.status.isTerminal = false) ∧ (some stratV : Option Strategy) = none) := by
          rintro ⟨-, hpn⟩
          cases hpn
        cases dryRun with
        | true =>
          have hred : remediate s incidentId strategy true outcome =
              ⟨{ s with incidents := setIncident i.id (dryStep stratV) s.incidents },
                [], none⟩ := by
            rw [remediate, hfind]; simp [ht, hp]
          rw [hred]
          refine ⟨⟨fun h => Option.noConfusion h, fun h => absurd h hiff1⟩,
            ⟨fun h => Option.noConfusion h, fun h => absurd h hiff2⟩,
            fun e he => Option.noConfusion he, by simp, ?_⟩
          intro _ _
          refine ⟨rfl, ?_⟩
          intro i0 hfind0
          have hi0 : i0 = i := by
            injection hfind0 with h1
            exact h1.symm
          subst hi0
          have hguard : (decide (i0.id = i0.id) && !i0.status.isTerminal) = true := by
            rw [Bool.and_eq_true, ht]
            exact ⟨decide_eq_true rfl, rfl⟩
          refine ⟨dryStep stratV i0, ?_, rfl⟩
          show (setIncident i0.id (dryStep stratV) s.incidents).find?
            (fun j => decide (j.id = incidentId)) = some (dryStep stratV i0)
          rw [findIncident_setIncident s incidentId i0.id (dryStep stratV) (fun a => rfl)]
          have hq : s.incidents.find? (fun j => decide (j.id = incidentId)) = some i0 := hfind
          rw [hq]
          show some (if decide (i0.id = i0.id) && !i0.status.isTerminal then
            dryStep stratV i0 else i0) = some (dryStep stratV i0)
          rw [if_pos hguard]
        | false =>
          have hred : remediate s incidentId strategy false outcome =
              ⟨{ s with
                  incidents := setIncident i.id (realStep stratV outcome) s.incidents
                  execState := s.execState + 1 },
                [.remediating, (realStep stratV outcome i).status], none⟩ := by
            rw [remediate, hfind]; simp [ht, hp]
          rw [hred]
          refine ⟨⟨fun h => Option.noConfusion h, fun h => absurd h hiff1⟩,
            ⟨fun h => Option.noConfusion h, fun h => absurd h hiff2⟩,
            fun e he => Option.noConfusion he, ?_, by simp⟩
          intro _ _
          exact List.mem_cons_self _ _

/-- Counterexample for C6 as stated: a non-error dry run on an open
incident records the attempt but never moves the incident to remediating,
its status stays opened. -/
theorem remediate_dry_run_cex :
    (remediate sOpen 0 "restart_service" true true).err = none ∧
    IncidentStatus.remediating ∉ (remediate sOpen 0 "restart_service" true true).trace ∧
    findIncident (remediate sOpen 0 "restart_service" true true).state 0 =
      some ⟨0, 7, .medium, .opened, [2], [⟨.restart_service, true, true⟩], false⟩ := by
  decide

/-- Witness for C6: remediation of the escalated incident of sEsc fails
with UnknownIncidentError and leaves the store unchanged, while a real
remediate on the open incident of sOpen passes through remediating. -/
theorem remediate_error_contract_witness :
    ((remediate sEsc 0 "restart_service" false true).err = some .UnknownIncidentError ↔
      findIncident sEsc 0 = none ∨
      ∃ i, findIncident sEsc 0 = some i ∧ i.status.isTerminal = true) ∧
    (remediate sEsc 0 "restart_service" false true).state = sEsc ∧
    IncidentStatus.remediating ∈ (remediate sOpen 0 "restart_service" false true).trace := by
  have h1 := remediate_error_contract sEsc 0 "restart_service" false true
  have h2 := remediate_error_contract sOpen 0 "restart_service" false true
  exact ⟨h1.1, h1.2.2.1 .UnknownIncidentError (by decide), h2.2.2.2.1 (by decide) rfl⟩

end Core

namespace Frontend

/-- The digit accumulator never shrinks. -/
theorem natDigitsCore_length_mono (fuel : Nat) :
    ∀ (n : Nat) (acc : List Char), acc.length ≤ (natDigitsCore fuel n acc).length := by
  induction fuel with
  | zero => intro n acc; exact le_refl _
  | succ fuel ih =>
    intro n acc
    rw [natDigitsCore]
    by_cases h : n < 10
    · rw [if_pos h]; simp
    · rw [if_neg h]
      exact le_trans (by simp) (ih (n / 10) (Nat.digitChar (n % 10) :: acc))

/-- The decimal rendering of a natural number is never empty. -/
theorem natToStr_length_pos (n : Nat) : 1 ≤ (natToStr n).length := by
  rw [natToStr]
  show 1 ≤ (natDigitsCore (n + 1) n []).length
  rw [natDigitsCore]
  by_cases h : n < 10
  · rw [if_pos h]; simp
  · rw [if_neg h]
    exact le_trans (by simp) (natDigitsCore_length_mono n (n / 10) [Nat.digitChar (n % 10)])

/-- Zero padding reaches the requested width. -/
theorem padZeros_length (s : String) (d : Nat) : d ≤ (padZeros s d).length := by
  rw [padZeros]
  by_cases h : s.length < d
  · rw [if_pos h, String.length_append]
    have hrep : (String.mk (List.replicate (d - s.length) '0')).length = d - s.length := by
      show (List.replicate (d - s.length) '0').length = d - s.length
      exact List.length_replicate _ _
    rw [hrep]
    omega
  · rw [if_neg h]
    omega

/-- A fixed-point rendering with at least one decimal is at least d + 2
characters long: integer digit, decimal point, d fractional digits. -/
theorem toFixed_length (q : ℚ) (d : Nat) (hd : 1 ≤ d) : 2 + d ≤ (toFixed q d).length := by
  rw [toFixed, if_neg (by omega)]
  rw [String.length_append, String.length_append, String.length_append]
  have h1 := natToStr_length_pos ((round (q * (10 : ℚ) ^ d)).natAbs / 10 ^ d)
  have h2 := padZeros_length (natToStr ((round (q * (10 : ℚ) ^ d)).natAbs % 10 ^ d)) d
  have h3 : ("." : String).length = 1 := rfl
  by_cases hneg : round (q * (10 : ℚ) ^ d) < 0
  · rw [if_pos hneg]
    have : ("-" : String).length = 1 := rfl
    omega
  · rw [if_neg hneg]
    have : ("" : String).length = 0 := rfl
    omega

end Frontend

namespace Frontend

/-- Claim C8: HealthCheckCard.formatValue returns the string N/A exactly
when the last run is missing, its result_value is null, or the value is
exactly zero, reflecting the JavaScript truthiness guard; a nonzero value
is formatted by check_type with the ms suffix for latency, value times one
hundred and a percent sign for correctness, a KS prefix for drift, a
percent suffix for resource, and two decimals otherwise. -/
theorem formatValue_spec (check : HealthCheckView) :
    (formatValue check = "N/A" ↔
      check.last_run = none ∨
      ∃ r, check.last_run = some r ∧ (r.result_value = none ∨ r.result_value = some 0)) ∧
    (∀ (r : CheckRunView) (v : ℚ), check.last_run = some r → r.result_value = some v →
      v ≠ 0 →
      ((check.check_type = "latency" → formatValue check = toFixed v 1 ++ "ms") ∧
       (check.check_type = "correctness" → formatValue check = toFixed (v * 100) 1 ++ "%") ∧
       (check.check_type = "drift" → formatValue check = "KS: " ++ toFixed v 3) ∧
       (check.check_type = "resource" → formatValue check = toFixed v 1 ++ "%") ∧
       (check.check_type ≠ "latency" → check.check_type ≠ "correctness" →
        check.check_type ≠ "drift" → check.check_type ≠ "resource" →
        formatValue check = toFixed v 2))) := by
  obtain ⟨ct, lr⟩ := check
  cases lr with
  | none =>
    refine ⟨⟨fun _ => Or.inl rfl, fun _ => rfl⟩, ?_⟩
    intro r v hr
    exact Option.noConfusion hr
  | some r0 =>
    obtain ⟨st, rv⟩ := r0
    cases rv with
    | none =>
      refine ⟨⟨fun _ => Or.inr ⟨⟨st, none⟩, rfl, Or.inl rfl⟩, fun _ => rfl⟩, ?_⟩
      intro r v hr hv
      injection hr with hr1
      rw [← hr1] at hv
      exact Option.noConfusion hv
    | some v0 =>
      by_cases hz : v0 = 0
      · subst hz
        have hna : formatValue ⟨ct, some ⟨st, some 0⟩⟩ = "N/A" := by
          simp [formatValue]
        refine ⟨⟨fun _ => Or.inr ⟨⟨st, some 0⟩, rfl, Or.inr rfl⟩, fun _ => hna⟩, ?_⟩
        intro r v hr hv hne
        injection hr with hr1
        rw [← hr1] at hv
        injection hv with hv1
        exact absurd hv1.symm hne
      · have hfv : formatValue ⟨ct, some ⟨st, some v0⟩⟩ =
            (match ct with
             | "latency" => toFixed v0 1 ++ "ms"
             | "correctness" => toFixed (v0 * 100) 1 ++ "%"
             | "drift" => "KS: " ++ toFixed v0 3
             | "resource" => toFixed v0 1 ++ "%"
             | _ => toFixed v0 2 : String) := by
          show (if v0 = 0 then "N/A" else _) = _
          rw [if_neg hz]
        have hlen : ("N/A" : String).length = 3 := rfl
        constructor
        · constructor
          · intro h
            rw [hfv] at h
            exfalso
            split at h
            · have hc := congrArg String.length h
              rw [String.length_append, hlen] at hc
              have := toFixed_length v0 1 (by omega)
              have hms : ("ms" : String).length = 2 := rfl
              omega
            · have hc := congrArg String.length h
              rw [String.length_append, hlen] at hc
              have := toFixed_length (v0 * 100) 1 (by omega)
              have hpc : ("%" : String).length = 1 := rfl
              omega
            · have hc := congrArg String.length h
              rw [String.length_append, hlen] at hc
              have := toFixed_length v0 3 (by omega)
              have hks : ("KS: " : String).length = 4 := rfl
              omega
            · have hc := congrArg String.length h
              rw [String.length_append, hlen] at hc
              have := toFixed_length v0 1 (by omega)
              have hpc : ("%" : String).length = 1 := rfl
              omega
            · have hc := congrArg String.length h
              rw [hlen] at hc
              have := toFixed_length v0 2 (by omega)
              omega
          · rintro (hnone | ⟨r, hr, hcase⟩)
            · exact Option.noConfusion hnone
            · injection hr with hr1
              rw [← hr1] at hcase
              rcases hcase with hrn | hr0
              · exact Option.noConfusion hrn
              · injection hr0 with hv1
                exact absurd hv1 hz
        · intro r v hr hv hne
          injection hr with hr1
          rw [← hr1] at hv
          injection hv with hv1
          subst hv1
          refine ⟨?_, ?_, ?_, ?_, ?_⟩
          · intro hct; subst hct; rw [hfv]; rfl
          · intro hct; subst hct; rw [hfv]; rfl
          · intro hct; subst hct; rw [hfv]; rfl
          · intro hct; subst hct; rw [hfv]; rfl
          · intro h1 h2 h3 h4
            rw [hfv]
            split
            · exact absurd rfl h1
            · exact absurd rfl h2
            · exact absurd rfl h3
            · exact absurd rfl h4
            · rfl

/-- Witness for C8: a latency check that measured 620 renders with the ms
suffix, and a run whose measured value is exactly zero renders N/A. -/
theorem formatValue_spec_witness :
    formatValue chkLatency = toFixed 620 1 ++ "ms" ∧ formatValue chkZero = "N/A" := by
  have h1 := (formatValue_spec chkLatency).2 ⟨"passed", some 620⟩ 620 rfl rfl (by decide)
  have h2 := (formatValue_spec chkZero).1.mpr
    (Or.inr ⟨⟨"failed", some 0⟩, rfl, Or.inr rfl⟩)
  exact ⟨h1.1 rfl, h2⟩

end Frontend
